import Mathlib

/-!
Verification of the wikitext rendering engine: a shallow embedding of the
tokenizer (src/lib/parser/tokenizer.ts), the parser functions
(src/lib/parser/functions.ts), the parameter substitution engine
(src/lib/templates/parser.ts), the template registry
(lib/templates/registry.ts), the token-stream parser/emitter
(src/lib/parser/parser.ts) and the render cache (lib/parser/cache.ts),
together with theorems settling the specification claims.

Representation conventions:
  - JS strings are modelled as Lean `String` / `List Char`; all character
    classes (whitespace, case mapping) are the ASCII fragment actually
    exercised by the engine.
  - The source stores a template token's parameter array JSON-serialized
    under `attributes.params` and parses it back in the parser; the
    embedding stores the list directly in a `params` field (the JSON
    round-trip is the identity on these values).
  - Mutable object state is threaded explicitly; `Date.now()` is a `Nat`
    parameter.
-/

namespace Wiki

/-- The apostrophe character (code 39). -/
def apos : Char := Char.ofNat 39

/-- Left curly brace (code 123). -/
def lbrace : Char := Char.ofNat 123

/-- Right curly brace (code 125). -/
def rbrace : Char := Char.ofNat 125

/-- JS whitespace as matched by the regexp escape for whitespace and by
`String.prototype.trim` (ASCII fragment). -/
def wsChar (c : Char) : Bool :=
  c = ' ' || c = '\t' || c = '\n' || c = '\r' || c = Char.ofNat 11 || c = Char.ofNat 12

/-- JS `String.prototype.trim` on char lists. -/
def trimChars (l : List Char) : List Char :=
  ((l.dropWhile (wsChar ·)).reverse.dropWhile (wsChar ·)).reverse

/-- JS `String.prototype.trim`. -/
def jsTrim (s : String) : String := (trimChars s.toList).asString

/-- ASCII lower-casing of one character (JS `toLowerCase` fragment). -/
def lowerChar (c : Char) : Char :=
  if 65 ≤ c.toNat ∧ c.toNat ≤ 90 then Char.ofNat (c.toNat + 32) else c

/-- ASCII upper-casing of one character (JS `toUpperCase` fragment). -/
def upperChar (c : Char) : Char :=
  if 97 ≤ c.toNat ∧ c.toNat ≤ 122 then Char.ofNat (c.toNat - 32) else c

/-- JS `String.prototype.toLowerCase` (ASCII fragment). -/
def lowerStr (s : String) : String := (s.toList.map lowerChar).asString

/-- JS `String.prototype.toUpperCase` (ASCII fragment). -/
def upperStr (s : String) : String := (s.toList.map upperChar).asString

/-- Lookup in a JS object / `Map`, modelled as an insertion-ordered
association list. -/
def mapGet {α : Type} (m : List (String × α)) (k : String) : Option α :=
  match m with
  | [] => none
  | (k0, v) :: rest => if k0 = k then some v else mapGet rest k

/-- JS object / `Map` assignment: update in place if the key exists
(keeping its position), else append. -/
def mapSet {α : Type} (m : List (String × α)) (k : String) (v : α) :
    List (String × α) :=
  match m with
  | [] => [(k, v)]
  | (k0, v0) :: rest => if k0 = k then (k, v) :: rest else (k0, v0) :: mapSet rest k v

/-- JS `Map.delete`. -/
def mapDel {α : Type} (m : List (String × α)) (k : String) : List (String × α) :=
  match m with
  | [] => []
  | (k0, v0) :: rest => if k0 = k then rest else (k0, v0) :: mapDel rest k

/-- Boolean substring test (JS `String.prototype.includes`). -/
def substrB (sub s : String) : Bool :=
  s.toList.tails.any (fun t => sub.toList.isPrefixOf t)

/-- JS `String.prototype.startsWith`. -/
def jsStartsWith (s pre : String) : Bool :=
  pre.toList.isPrefixOf s.toList

/-! ## Tokenizer (src/lib/parser/tokenizer.ts) -/

/-- The token kinds of lib/parser/types.ts (kinds never produced by the
tokenizer are omitted). -/
inductive TokenType
  | TEXT | NEWLINE | HEADING | LINK | TEMPLATE | PARSER_FUNCTION | MAGIC_WORD
  | HTML | TABLE | TABLE_ROW | TABLE_CELL | LIST_ITEM
  deriving DecidableEq, Repr

/-- A token (lib/parser/types.ts).  The source's `end` field is called
`stop` (reserved word); `attributes` is `attrs`; the JSON-serialized
parameter array is the `params` field; the optional `children` field is
omitted (the tokenizer never sets it). -/
structure Token where
  type : TokenType
  text : String
  start : Nat
  stop : Nat
  attrs : List (String × String) := []
  params : List String := []
  deriving DecidableEq, Repr

/-- Tokenizer state: the fixed input, the scan position, and the tokens
emitted so far. -/
structure TokState where
  full : List Char
  pos : Nat
  toks : List Token
  deriving DecidableEq, Repr

/-- Characters at which `tokenizeText` stops scanning. -/
def textStop (c : Char) : Bool :=
  c = '[' || c = lbrace || c = '<' || c = '=' || c = '|' || c = '\n' ||
  c = '*' || c = '#' || c = ':' || c = ';'

/-- The scan loop of `tokenizeText`: accumulate chars until a stop char. -/
def scanText : List Char → List Char
  | [] => []
  | c :: cs => if textStop c then [] else c :: scanText cs

/-- `Tokenizer.tokenizeText`: push a Text token for the scanned run (if
non-empty) and advance.  When the scan is empty nothing is pushed and the
position does not move. -/
def doText (s : TokState) : TokState :=
  let t := scanText (s.full.drop s.pos)
  if t.isEmpty then s
  else { s with
      pos := s.pos + t.length
      toks := s.toks ++ [⟨.TEXT, t.asString, s.pos, s.pos + t.length, [], []⟩] }

/-- Count the leading run of equals signs, capped at 6
(`tokenizeHeading`'s first loop). -/
def eqRun : List Char → Nat → Nat
  | c :: cs, lvl => if c = '=' ∧ lvl < 6 then eqRun cs (lvl + 1) else lvl
  | [], lvl => lvl

/-- `tokenizeHeading`'s content scan: accumulate until a run of `lvl`
equals signs; `none` if no closing run occurs before end of text.
Returns the content and the number of chars consumed (content plus the
closing run). -/
def headScan (lvl : Nat) : List Char → Option (List Char × Nat)
  | [] => none
  | c :: cs =>
    if c = '=' ∧ (List.replicate lvl '=').isPrefixOf (c :: cs) then some ([], lvl)
    else (headScan lvl cs).map (fun p => (c :: p.1, p.2 + 1))

/-- `Tokenizer.tokenizeHeading`.  On a missing closing run the source
resets the position to the start and calls `tokenizeText`. -/
def doHeading (s : TokState) : TokState :=
  let rest := s.full.drop s.pos
  let lvl := eqRun rest 0
  match headScan lvl (rest.drop lvl) with
  | some (content, n) =>
    let fin := s.pos + lvl + n
    { s with
        pos := fin
        toks := s.toks ++
        [⟨.HEADING, jsTrim content.asString, s.pos, fin, [("level", toString lvl)], []⟩] }
  | none => doText s

/-- Result of the internal-link scan. -/
structure ILink where
  target : List Char
  display : List Char
  pipe : Bool
  used : Nat
  deriving Repr

/-- The scan loop of `tokenizeInternalLink` (after the two opening
brackets): split on the first pipe, stop at a bracket pair; `none` when
unclosed. -/
def iScan : List Char → Bool → Option ILink
  | [], _ => none
  | c :: cs, ps =>
    if c = ']' ∧ cs.head? = some ']' then some ⟨[], [], ps, 2⟩
    else if c = '|' ∧ ps = false then
      (iScan cs true).map (fun r => { r with used := r.used + 1 })
    else if ps then
      (iScan cs ps).map (fun r => { r with display := c :: r.display, used := r.used + 1 })
    else
      (iScan cs ps).map (fun r => { r with target := c :: r.target, used := r.used + 1 })

/-- `Tokenizer.tokenizeInternalLink`. -/
def doILink (s : TokState) : TokState :=
  match iScan ((s.full.drop s.pos).drop 2) false with
  | some r =>
    let fin := s.pos + 2 + r.used
    let target := jsTrim r.target.asString
    let display := jsTrim r.display.asString
    if target = "" then
      { s with
          pos := fin
          toks := s.toks ++
          [⟨.TEXT, "[[" ++ (if display ≠ "" then "|" ++ display else "") ++ "]]",
          s.pos, fin, [], []⟩] }
    else
      let txt := if r.pipe ∧ display ≠ "" then display else target
      { s with
          pos := fin
          toks := s.toks ++
          [⟨.LINK, txt, s.pos, fin,
          [("target", target), ("display", txt), ("external", "false")], []⟩] }
  | none => doText s

/-- Result of the external-link scan. -/
structure ELink where
  url : List Char
  txt : List Char
  used : Nat
  deriving Repr

/-- The scan loop of `tokenizeExternalLink` (after the opening bracket):
the display text begins at the first space following a non-empty url;
`none` when no closing bracket occurs. -/
def eScan : List Char → Bool → List Char → Option ELink
  | [], _, _ => none
  | c :: cs, inText, url =>
    if c = ' ' ∧ inText = false ∧ url ≠ [] then
      (eScan cs true url).map (fun r => { r with used := r.used + 1 })
    else if c = ']' then some ⟨url, [], 1⟩
    else if inText then
      (eScan cs true url).map (fun r => { r with txt := c :: r.txt, used := r.used + 1 })
    else
      (eScan cs false (url ++ [c])).map (fun r => { r with used := r.used + 1 })

/-- The regexp scheme test of `tokenizeExternalLink`. -/
def hasScheme (url : String) : Bool :=
  jsStartsWith url "http:" || jsStartsWith url "https:" ||
  jsStartsWith url "ftp:" || jsStartsWith url "mailto:"

/-- `Tokenizer.tokenizeExternalLink`. -/
def doELink (s : TokState) : TokState :=
  match eScan ((s.full.drop s.pos).drop 1) false [] with
  | some r =>
    let url := r.url.asString
    if url ≠ "" ∧ hasScheme url then
      let txt := jsTrim r.txt.asString
      let fin := s.pos + 1 + r.used
      { s with
          pos := fin
          toks := s.toks ++
          [⟨.LINK, if txt ≠ "" then txt else url, s.pos, fin,
          [("url", url), ("external", "true")], []⟩] }
    else doText s
  | none => doText s

/-- Result of the template scan. -/
structure TScan where
  name : List Char
  params : List (List Char)
  used : Nat
  deriving Repr

/-- The brace-depth scan loop of `tokenizeTemplate`, structured on fuel
(each iteration consumes one or two characters, so fuel
`rem.length + 1` can never run out).  The name is the segment before the
first top-level pipe (it stays empty if no pipe occurs); on close the
pending segment is pushed as a parameter when non-empty; `none` when the
braces never rebalance. -/
def tScanF : Nat → List Char → List Char → List Char → List (List Char) → Nat →
    Option TScan
  | 0, _, _, _, _, _ => none
  | _, [], _, _, _, _ => none
  | Nat.succ fuel, c :: cs, name, cur, ps, depth =>
    if c = lbrace ∧ cs.head? = some lbrace then
      (tScanF fuel (cs.drop 1) name (cur ++ [lbrace, lbrace]) ps (depth + 1)).map
        (fun r => { r with used := r.used + 2 })
    else if c = rbrace ∧ cs.head? = some rbrace then
      if depth = 1 then
        some ⟨name, if cur ≠ [] then ps ++ [cur] else ps, 2⟩
      else
        (tScanF fuel (cs.drop 1) name (cur ++ [rbrace, rbrace]) ps (depth - 1)).map
          (fun r => { r with used := r.used + 2 })
    else if c = '|' ∧ depth = 1 then
      if name = [] then
        (tScanF fuel cs cur [] ps depth).map (fun r => { r with used := r.used + 1 })
      else
        (tScanF fuel cs name [] (ps ++ [cur]) depth).map
          (fun r => { r with used := r.used + 1 })
    else
      (tScanF fuel cs name (cur ++ [c]) ps depth).map
        (fun r => { r with used := r.used + 1 })

/-- The brace-depth scan of `tokenizeTemplate`. -/
def tScan (rem : List Char) (name cur : List Char) (ps : List (List Char))
    (depth : Nat) : Option TScan :=
  tScanF (rem.length + 1) rem name cur ps depth

/-- `Tokenizer.tokenizeTemplate`: scan the balanced double-brace region
and classify by the name (leading hash: parser function; fixed under
upper-casing: magic word; otherwise template). -/
def doTemplate (s : TokState) : TokState :=
  match tScan ((s.full.drop s.pos).drop 2) [] [] [] 1 with
  | some r =>
    let name := r.name.asString
    let ps := r.params.map (fun p => p.asString)
    let fin := s.pos + 2 + r.used
    if jsStartsWith name "#" then
      { s with
          pos := fin
          toks := s.toks ++ [⟨.PARSER_FUNCTION, name.drop 1, s.pos, fin, [], ps⟩] }
    else if upperStr name = name then
      { s with
          pos := fin
          toks := s.toks ++ [⟨.MAGIC_WORD, name, s.pos, fin, [], ps⟩] }
    else
      { s with
          pos := fin
          toks := s.toks ++ [⟨.TEMPLATE, name, s.pos, fin, [], ps⟩] }
  | none => doText s

/-- Alphanumeric (the tag-name character class of `tokenizeHTML`). -/
def alnum (c : Char) : Bool := c.isAlpha || c.isDigit

/-- Outcome of one iteration of `tokenizeHTML`'s attribute loop. -/
inductive AttrStep
  | done (used : Nat)
  | spin
  | cont (used : Nat) (acc2 : List (String × String))
  deriving Repr

/-- One iteration of the attribute-parsing loop of `tokenizeHTML`:
skip whitespace, read an attribute name, skip whitespace and equals
signs, read a quoted value.  `spin` is an iteration that consumes no
character: the source loop then repeats the identical state forever. -/
def htmlAttrStep (l : List Char) (acc : List (String × String)) : AttrStep :=
  let wsn := (l.takeWhile (wsChar ·)).length
  match l.drop wsn with
  | [] => .done wsn
  | c :: cs =>
    if c = '>' then .done wsn
    else
      let nameChars := (c :: cs).takeWhile (fun ch => alnum ch || ch = '-')
      let l2 := (c :: cs).drop nameChars.length
      let eqn := (l2.takeWhile (fun ch => wsChar ch || ch = '=')).length
      let l3 := l2.drop eqn
      let valScan : Option (List Char) :=
        match l3 with
        | q :: rest =>
          if q = '"' ∨ q = apos then some (rest.takeWhile (fun ch => ch ≠ q))
          else none
        | [] => none
      let vn := match valScan with
        | some v => 2 + v.length
        | none => 0
      let consumed := wsn + nameChars.length + eqn + vn
      let acc2 := if nameChars ≠ [] then
          mapSet acc nameChars.asString (valScan.getD []).asString
        else acc
      if consumed = 0 then .spin else .cont consumed acc2

/-- The attribute-parsing loop of `tokenizeHTML`, on fuel (a continuing
iteration always consumes at least one character, so fuel `l.length + 1`
can never run out).  Returns the parsed attributes and chars consumed,
or `none` when the source loop would spin forever. -/
def htmlAttrLoopF : Nat → List Char → List (String × String) →
    Option (List (String × String) × Nat)
  | 0, _, _ => none
  | Nat.succ fuel, l, acc =>
    match htmlAttrStep l acc with
    | .done n => some (acc, n)
    | .spin => none
    | .cont n acc2 =>
      match htmlAttrLoopF fuel (l.drop n) acc2 with
      | some (a, m) => some (a, n + m)
      | none => none

/-- The attribute-parsing loop of `tokenizeHTML`. -/
def htmlAttrLoop (l : List Char) (acc : List (String × String)) :
    Option (List (String × String) × Nat) :=
  htmlAttrLoopF (l.length + 1) l acc

/-- `Tokenizer.tokenizeHTML`.  `none` when the attribute loop diverges. -/
def doHTML (s : TokState) : Option TokState :=
  let rest := (s.full.drop s.pos).drop 1
  let isClosing := rest.head? = some '/'
  let rest1 := if isClosing then rest.drop 1 else rest
  let tag := rest1.takeWhile alnum
  let rest2 := rest1.drop tag.length
  let headN := 1 + (if isClosing then 1 else 0) + tag.length
  match (if isClosing then some ([], 0) else htmlAttrLoop rest2 []) with
  | none => none
  | some (attrs, n) =>
    let rest3 := rest2.drop n
    let skipN := (rest3.takeWhile (fun c => c ≠ '>')).length
    let fin := s.pos + headN + n + skipN + 1
    some { s with
        pos := fin
        toks := s.toks ++
        [⟨.HTML, tag.asString, s.pos, fin,
        mapSet attrs "closing" (if isClosing then "true" else "false"), []⟩] }

/-- `Tokenizer.tokenizeNewline`. -/
def doNewline (s : TokState) : TokState :=
  { s with
      pos := s.pos + 1
      toks := s.toks ++ [⟨.NEWLINE, "\n", s.pos, s.pos + 1, [], []⟩] }

/-- `Tokenizer.tokenizeList`. -/
def doList (s : TokState) : TokState :=
  match (s.full.drop s.pos).head? with
  | none => s
  | some m =>
    let rest := s.full.drop s.pos
    let lvl := (rest.takeWhile (fun c => c = m)).length
    let rest1 := rest.drop lvl
    let sp := (rest1.takeWhile (fun c => c = ' ')).length
    let content := (rest1.drop sp).takeWhile (fun c => c ≠ '\n')
    let fin := s.pos + lvl + sp + content.length
    let ty := if m = '*' then "bullet" else if m = '#' then "number"
              else if m = ':' then "indent" else "definition"
    { s with
        pos := fin
        toks := s.toks ++
        [⟨.LIST_ITEM, jsTrim content.asString, s.pos, fin,
        [("type", ty), ("level", toString lvl)], []⟩] }

/-- `Tokenizer.tokenizeTableStart`. -/
def doTableStart (s : TokState) : TokState :=
  let n := (((s.full.drop s.pos).drop 2).takeWhile (fun c => c ≠ '\n')).length
  let fin := s.pos + 2 + n
  { s with
      pos := fin
      toks := s.toks ++ [⟨.TABLE, "start", s.pos, fin, [("state", "start")], []⟩] }

/-- `Tokenizer.tokenizeTableEnd`. -/
def doTableEnd (s : TokState) : TokState :=
  { s with
      pos := s.pos + 2
      toks := s.toks ++ [⟨.TABLE, "end", s.pos, s.pos + 2, [("state", "end")], []⟩] }

/-- `Tokenizer.tokenizeTableRow`. -/
def doTableRow (s : TokState) : TokState :=
  let n := (((s.full.drop s.pos).drop 2).takeWhile (fun c => c ≠ '\n')).length
  let fin := s.pos + 2 + n
  { s with pos := fin, toks := s.toks ++ [⟨.TABLE_ROW, "", s.pos, fin, [], []⟩] }

/-- The cell-content scan of `tokenizeTableCell`: stop at a newline or a
doubled cell separator. -/
def cellScan : List Char → List Char
  | [] => []
  | c :: cs =>
    if c = '\n' then []
    else if (c = '|' ∧ cs.head? = some '|') ∨ (c = '!' ∧ cs.head? = some '!') then []
    else c :: cellScan cs

/-- `Tokenizer.tokenizeTableCell`. -/
def doTableCell (s : TokState) (isHeader : Bool) : TokState :=
  match s.full.drop s.pos with
  | [] => s
  | c0 :: cs =>
    let skip2 := if (c0 = '|' ∨ c0 = '!') ∧ cs.head? = some c0 then 1 else 0
    let rest1 := cs.drop skip2
    let sp := (rest1.takeWhile (fun c => c = ' ')).length
    let content := cellScan (rest1.drop sp)
    let fin := s.pos + 1 + skip2 + sp + content.length
    { s with
        pos := fin
        toks := s.toks ++
        [⟨.TABLE_CELL, jsTrim content.asString, s.pos, fin,
        [("header", if isHeader then "true" else "false")], []⟩] }

/-- `Tokenizer.isTableContext`: positive balance of table start/end
markers among the tokens emitted so far. -/
def tableDepth (toks : List Token) : Int :=
  toks.foldl
    (fun d t =>
      if t.type = .TABLE then
        if mapGet t.attrs "state" = some "start" then d + 1
        else if mapGet t.attrs "state" = some "end" then d - 1
        else d
      else d) 0

/-- `Tokenizer.isTableContext`. -/
def isTableContext (s : TokState) : Bool := 0 < tableDepth s.toks

/-- `Tokenizer.isStartOfLine`. -/
def isStartOfLine (s : TokState) : Bool :=
  s.pos = 0 || s.toks.isEmpty ||
    (match s.toks.getLast? with
     | some t => t.type = .NEWLINE
     | none => false)

/-- One iteration of the `tokenize` dispatch loop.  `none` when the
current arm diverges internally (`tokenizeHTML`'s attribute loop). -/
def tokStep (s : TokState) : Option TokState :=
  match (s.full.drop s.pos).head? with
  | none => some s
  | some c =>
    let next := ((s.full.drop s.pos).drop 1).head?
    if c = '=' then some (if isStartOfLine s then doHeading s else doText s)
    else if c = '[' then some (if next = some '[' then doILink s else doELink s)
    else if c = lbrace then
      if next = some lbrace then
        if ((s.full.drop s.pos).drop 2).head? = some lbrace then
          some (doText s)
        else some (doTemplate s)
      else if next = some '|' then some (doTableStart s)
      else some (doText s)
    else if c = '<' then doHTML s
    else if c = '|' then
      if next = some rbrace then some (doTableEnd s)
      else if next = some '-' then some (doTableRow s)
      else if isTableContext s then some (doTableCell s false)
      else some (doText s)
    else if c = '!' then
      if isTableContext s then some (doTableCell s true) else some (doText s)
    else if c = '-' then some (doText s)
    else if c = '*' ∨ c = '#' ∨ c = ':' ∨ c = ';' then
      some (if isStartOfLine s then doList s else doText s)
    else if c = '\n' then some (doNewline s)
    else some (doText s)

/-- The initial tokenizer state for an input string. -/
def initTok (text : String) : TokState := ⟨text.toList, 0, []⟩

/-- `Tokenizer.tokenize`, run with fuel: `some` is the source loop
terminating with the token list; `none` means no result within `fuel`
iterations (in particular, nontermination of the source loop). -/
def tokenizeFuel : Nat → TokState → Option (List Token)
  | 0, _ => none
  | Nat.succ fuel, s =>
    if s.pos < s.full.length then
      match tokStep s with
      | some s2 => tokenizeFuel fuel s2
      | none => none
    else some s.toks

/-- A state the dispatch loop maps to itself (with the scan unfinished)
never produces a result, for any amount of fuel. -/
theorem tokenizeFuel_none_of_fix (s : TokState) (hfix : tokStep s = some s)
    (hlt : s.pos < s.full.length) : ∀ fuel, tokenizeFuel fuel s = none := by
  intro fuel
  induction fuel with
  | zero => rfl
  | succ n ih => simp [tokenizeFuel, hlt, hfix, ih]

/-- C1: the claim that `tokenize` terminates on every input (degrading
malformed markup to literal Text tokens) fails on the code: on a heading
opener with no closing run, an unclosed template opener, an unclosed
external-link opener, or an unclosed internal-link opener, the failing
arm backtracks into `tokenizeText`, which stops immediately at the very
trigger character, consuming nothing and emitting nothing, so the
dispatch loop repeats the identical state forever and `tokenize` never
returns. -/
theorem tokenize_no_result_on_unclosed_openers :
    ∀ fuel : Nat,
      tokenizeFuel fuel (initTok "=") = none ∧
      tokenizeFuel fuel (initTok "\x7b\x7bx") = none ∧
      tokenizeFuel fuel (initTok "[x") = none ∧
      tokenizeFuel fuel (initTok "[[x") = none := by
  intro fuel
  refine ⟨?_, ?_, ?_, ?_⟩ <;>
    exact tokenizeFuel_none_of_fix _ (by decide) (by decide) fuel

/-! ## Parser context (lib/parser/types.ts) -/

/-- A magic-word binding: a plain string or a zero-argument closure. -/
inductive MagicVal
  | str (s : String)
  | fn (f : Unit → String)

/-- Current-page information of `ParserContext.page` (the source's
`namespace` field is `nspace`: reserved word). -/
structure PageInfo where
  title : String := ""
  nspace : String := ""
  deriving DecidableEq, Repr

/-- `ParserContext` of lib/parser/types.ts. -/
structure PCtx where
  page : PageInfo := {}
  templateParams : List (String × String) := []
  recursionDepth : Nat := 0
  expandTemplates : Bool := true
  magicWords : List (String × MagicVal) := []
  templateCache : List (String × String) := []

/-! ## Parser functions (src/lib/parser/functions.ts) -/

/-- The engine's inline error marker. -/
def errSpan (msg : String) : String :=
  "<strong class=\"error\">" ++ msg ++ "</strong>"

/-- Result of one parser function body; `Except.error` models a raised
JS exception escaping the body. -/
abbrev PFResult := Except String String

/-- `parserFunctions.if`. -/
def funcIf (args : List String) (_ctx : PCtx) : PFResult :=
  if args.length < 2 then .ok ""
  else
    let condition := jsTrim (args.getD 0 "")
    let thenValue := args.getD 1 ""
    let elseValue := args.getD 2 ""
    .ok (if condition ≠ "" ∧ condition ≠ "0" then thenValue else elseValue)

/-- `parserFunctions.ifeq`. -/
def funcIfeq (args : List String) (_ctx : PCtx) : PFResult :=
  if args.length < 3 then .ok ""
  else
    let str1 := jsTrim (args.getD 0 "")
    let str2 := jsTrim (args.getD 1 "")
    .ok (if str1 = str2 then args.getD 2 "" else args.getD 3 "")

/-- Index of the first occurrence of a character (JS `indexOf`). -/
def idxOf (ch : Char) : List Char → Option Nat
  | [] => none
  | c :: cs => if c = ch then some 0 else (idxOf ch cs).map (· + 1)

/-- The case loop of `parserFunctions.switch`, carrying the pending
default result. -/
def switchLoop (value : String) : List String → String → String
  | [], dflt => dflt
  | arg :: rest, dflt =>
    let caseArg := (jsTrim arg).toList
    match idxOf '=' caseArg with
    | none => switchLoop value rest dflt
    | some i =>
      let caseValue := jsTrim (caseArg.take i).asString
      let result := jsTrim (caseArg.drop (i + 1)).asString
      if caseValue = "#default" then switchLoop value rest result
      else if caseValue = value then result
      else switchLoop value rest dflt

/-- `parserFunctions.switch`. -/
def funcSwitch (args : List String) (_ctx : PCtx) : PFResult :=
  if args.length < 2 then .ok ""
  else .ok (switchLoop (jsTrim (args.getD 0 "")) (args.drop 1) "")

/-- `parserFunctions.expr`.  The call to the JS evaluator is the
parameter `ev` (`none` models a thrown exception, e.g. on a malformed
expression); the body catches it and degrades to the inline marker. -/
def funcExpr (ev : String → Option String) (args : List String) (_ctx : PCtx) :
    PFResult :=
  if args.length = 0 then .ok ""
  else
    match ev (jsTrim (args.getD 0 "")) with
    | some s => .ok s
    | none => .ok (errSpan "Expression error")

/-- `parserFunctions.time`.  The locale formatting call is the parameter
`timeF` (`none` models a thrown exception); the body catches it. -/
def funcTime (timeF : List String → Option String) (args : List String)
    (_ctx : PCtx) : PFResult :=
  if args.length = 0 then .ok ""
  else
    match timeF args with
    | some s => .ok s
    | none => .ok (errSpan "Time format error")

/-- The `parserFunctions` record, as a name-keyed lookup. -/
def parserFunctions (ev : String → Option String)
    (timeF : List String → Option String) (name : String) :
    Option (List String → PCtx → PFResult) :=
  if name = "if" then some funcIf
  else if name = "ifeq" then some funcIfeq
  else if name = "switch" then some funcSwitch
  else if name = "expr" then some (funcExpr ev)
  else if name = "time" then some (funcTime timeF)
  else none

/-- `executeParserFunction` of functions.ts: unknown names and caught
exceptions both become inline error markers. -/
def executeParserFunction (ev : String → Option String)
    (timeF : List String → Option String) (name : String)
    (args : List String) (ctx : PCtx) : String :=
  match parserFunctions ev timeF name with
  | none => errSpan ("Unknown parser function: " ++ name)
  | some f =>
    match f args ctx with
    | .ok s => s
    | .error _ => errSpan ("Parser function error: " ++ name)

/-- One case segment parsed the way the switch loop does: trim the
segment, split at the first equals sign, trim both sides; `none` when
the segment holds no equals sign (such segments are skipped). -/
def parseCase (seg : String) : Option (String × String) :=
  let l := (jsTrim seg).toList
  (idxOf '=' l).map (fun i =>
    (jsTrim (l.take i).asString, jsTrim (l.drop (i + 1)).asString))

/-- Case selection on parsed key/result pairs: the first ordinary case
whose key equals the value wins; a `#default` key only updates the
pending default result. -/
def switchPick (value : String) : List (String × String) → String → String
  | [], dflt => dflt
  | (k, v) :: rest, dflt =>
    if k = "#default" then switchPick value rest v
    else if k = value then v
    else switchPick value rest dflt

/-- Switch semantics as the spec words it, on parsed case pairs: the
result of the first case whose key equals the value (`#default` being a
reserved key, not an ordinary case), else the last default result, else
the empty string. -/
def switchSpecPick (value : String) (parsed : List (String × String)) : String :=
  match parsed.find? (fun kv => kv.1 ≠ "#default" ∧ kv.1 = value) with
  | some kv => kv.2
  | none => (((parsed.filter (fun kv => kv.1 = "#default")).getLast?).map Prod.snd).getD ""

/-- Switch semantics as the spec words it, on the raw argument list. -/
def switchSpec (args : List String) : String :=
  match args with
  | [] => ""
  | v :: cases => switchSpecPick (jsTrim v) (cases.filterMap parseCase)

/-- The switch case loop is case selection over the parsed segments. -/
theorem switchLoop_eq_pick (value : String) (rest : List String) :
    ∀ dflt, switchLoop value rest dflt =
      switchPick value (rest.filterMap parseCase) dflt := by
  induction rest with
  | nil => intro dflt; simp [switchLoop, switchPick]
  | cons arg rest ih =>
    intro dflt
    simp only [switchLoop, List.filterMap_cons, parseCase]
    cases hidx : idxOf '=' (jsTrim arg).toList with
    | none => simpa using ih dflt
    | some i => simp [switchPick, ih]

/-- Case selection agrees with the spec-side first-match/last-default
formulation, relative to the pending default. -/
theorem switchPick_eq_spec (value : String) (parsed : List (String × String)) :
    ∀ dflt, switchPick value parsed dflt =
      (match parsed.find? (fun kv => kv.1 ≠ "#default" ∧ kv.1 = value) with
      | some kv => kv.2
      | none =>
        (((parsed.filter (fun kv => kv.1 = "#default")).getLast?).map Prod.snd).getD
          dflt) := by
  induction parsed with
  | nil => intro dflt; simp [switchPick]
  | cons kv rest ih =>
    intro dflt
    obtain ⟨k, v⟩ := kv
    by_cases hdef : k = "#default"
    · subst hdef
      have hnm : ¬("#default" ≠ "#default" ∧ "#default" = value) := fun h => h.1 rfl
      simp only [switchPick, if_pos rfl, List.find?_cons, List.filter_cons]
      rw [ih v]
      simp only [hnm, decide_eq_true_eq]
      cases hfind : rest.find? (fun kv => decide (kv.1 ≠ "#default" ∧ kv.1 = value)) with
      | some kv2 => simp [hfind, hnm]
      | none =>
        simp only [hfind, hnm]
        cases hflt : rest.filter (fun kv => decide (kv.1 = "#default")) with
        | nil => simp [hfind, hflt, hnm]
        | cons b t =>
          have hs := List.getLast?_eq_getLast_of_ne_nil
            (l := b :: t) (by simp)
          simp [hfind, hflt, hnm, List.getLast?_cons_cons, hs]
    · by_cases hmatch : k = value
      · subst hmatch
        simp [switchPick, hdef, List.find?_cons]
      · simp only [switchPick, hdef, hmatch, if_neg, not_false_iff]
        rw [ih dflt]
        simp [List.find?_cons, List.filter_cons, hdef, hmatch]

/-- The implemented switch is the spec-side switch. -/
theorem funcSwitch_eq_spec (args : List String) (ctx : PCtx) :
    funcSwitch args ctx = .ok (switchSpec args) := by
  unfold funcSwitch switchSpec
  match args with
  | [] => simp
  | [v] => simp [switchSpecPick, switchLoop]
  | v :: c :: cases =>
    have hlen : ¬((v :: c :: cases).length < 2) := by simp
    simp only [hlen, if_neg, not_false_iff]
    rw [show (v :: c :: cases).getD 0 "" = v from rfl,
        show (v :: c :: cases).drop 1 = c :: cases from rfl]
    rw [switchLoop_eq_pick, switchPick_eq_spec]
    rfl

/-- C3: the `if` parser function trims its condition, is truthy iff the
trimmed condition is non-empty and not the literal zero string, and
returns the then-branch when truthy and the else-branch (empty when
omitted) when falsy; the `switch` parser function realizes the
first-match/default semantics (`switchSpec`); and the four concrete
examples of the spec evaluate as claimed. -/
theorem parser_function_if_and_switch :
    ∀ (ctx : PCtx) (c t e : String),
      funcIf [c, t, e] ctx =
        .ok (if jsTrim c ≠ "" ∧ jsTrim c ≠ "0" then t else e) ∧
      funcIf [c, t] ctx =
        .ok (if jsTrim c ≠ "" ∧ jsTrim c ≠ "0" then t else "") ∧
      (∀ args, funcSwitch args ctx = .ok (switchSpec args)) ∧
      executeParserFunction (fun _ => none) (fun _ => none)
        "if" [" ", "then", "else"] ctx = "else" ∧
      executeParserFunction (fun _ => none) (fun _ => none)
        "if" ["0", "then", "else"] ctx = "else" ∧
      executeParserFunction (fun _ => none) (fun _ => none)
        "switch" ["b", "a=1", "b=2", "#default=9"] ctx = "2" ∧
      executeParserFunction (fun _ => none) (fun _ => none)
        "switch" ["z", "a=1", "b=2", "#default=9"] ctx = "9" := by
  intro ctx c t e
  refine ⟨by simp [funcIf], by simp [funcIf], fun args => funcSwitch_eq_spec args ctx,
    by rfl, by rfl, by rfl, by rfl⟩

/-- `TemplateContext` of templates/engine.ts. -/
structure TemplateCtx where
  params : List (String × String) := []
  page : Option PageInfo := none

/-- A `TemplateDefinition` of registry.ts: an optional static wikitext
body and an optional programmatic render function.  (The React
`component`/`transformParams` fields, consumed only by the excluded UI
layer, are omitted.) -/
structure TDef where
  name : String
  wikitext : Option String := none
  render : Option (List (String × String) → TemplateCtx → String) := none

/-- The whitespace-collapsing pass of `normalizeName` (the regexp
replacement of whitespace runs by single underscores), with a flag for
being inside a run. -/
def collapseWsUnderscore : Bool → List Char → List Char
  | _, [] => []
  | inRun, c :: cs =>
    if wsChar c then
      if inRun then collapseWsUnderscore true cs
      else '_' :: collapseWsUnderscore true cs
    else c :: collapseWsUnderscore false cs

/-- `TemplateRegistry.normalizeName`: trim, lowercase, collapse
whitespace runs to single underscores. -/
def normalizeName (s : String) : String :=
  (collapseWsUnderscore false (lowerStr (jsTrim s)).toList).asString

/-- The template registry state: the template map and the alias map. -/
structure Registry where
  templates : List (String × TDef) := []
  aliases : List (String × String) := []

/-- `TemplateRegistry.register`. -/
def Registry.register (r : Registry) (d : TDef) : Registry :=
  { r with templates := mapSet r.templates (normalizeName d.name) d }

/-- `TemplateRegistry.get`: normalize, follow one alias hop, look up. -/
def Registry.get (r : Registry) (name : String) : Option TDef :=
  let n := normalizeName name
  let target := (mapGet r.aliases n).getD n
  mapGet r.templates target

/-- `TemplateRegistry.has`. -/
def Registry.has (r : Registry) (name : String) : Bool :=
  let n := normalizeName name
  match mapGet r.aliases n with
  | some target => (mapGet r.templates target).isSome
  | none => (mapGet r.templates n).isSome

/-- `TemplateRegistry.render`: resolve the call's name; a missing
template yields the visible not-found marker; a render function wins
over a wikitext body, which goes through `evaluateTemplate`
(templates/engine.ts, taken as the parameter `evalT`); the
React-component arm is omitted with the component field. -/
def Registry.renderCall (evalT : String → TemplateCtx → String) (r : Registry)
    (callName : String) (callParams : List (String × String))
    (page : Option PageInfo) : String :=
  match r.get callName with
  | none => "<div class=\"error\">Template not found: " ++ callName ++ "</div>"
  | some t =>
    let ctx : TemplateCtx := { params := callParams, page := page }
    match t.render with
    | some f => f callParams ctx
    | none =>
      match t.wikitext with
      | some w => evalT w ctx
      | none => ""

/-- `ParserOptions` of lib/parser/types.ts, with the constructor
defaults of the `Parser` class. -/
structure POptions where
  expandTemplates : Bool := true
  maxTemplateDepth : Nat := 40
  allowHTML : Bool := true
  generateTOC : Bool := true
  processCategories : Bool := true
  deriving DecidableEq, Repr

/-- The `maxTemplateDepth || 40` read: a zero (falsy) option falls back
to the default. -/
def maxDepthOf (o : POptions) : Nat :=
  if o.maxTemplateDepth = 0 then 40 else o.maxTemplateDepth

/-- `url.replace` of double quotes by the quote entity (the XSS escape
of `renderExternalLink`). -/
def escQuotes (s : String) : String :=
  (s.toList.flatMap (fun c => if c = '"' then "&quot;".toList else [c])).asString

/-- `escapeHTML` (the successive global replacements are equivalent to
one character-wise pass because the ampersand pass runs first). -/
def escapeHTML (s : String) : String :=
  (s.toList.flatMap (fun c =>
    if c = '&' then "&amp;".toList
    else if c = '<' then "&lt;".toList
    else if c = '>' then "&gt;".toList
    else if c = '"' then "&quot;".toList
    else if c = apos then "&#039;".toList
    else [c])).asString

/-- An uppercase hex digit. -/
def hexDigit (n : Nat) : Char :=
  if n < 10 then Char.ofNat (48 + n) else Char.ofNat (55 + n)

/-- The UTF-8 bytes of a character. -/
def utf8Bytes (c : Char) : List Nat :=
  let n := c.toNat
  if n < 128 then [n]
  else if n < 2048 then [192 + n / 64, 128 + n % 64]
  else if n < 65536 then [224 + n / 4096, 128 + (n / 64) % 64, 128 + n % 64]
  else [240 + n / 262144, 128 + (n / 4096) % 64, 128 + (n / 64) % 64, 128 + n % 64]

/-- The characters `encodeURIComponent` leaves unencoded. -/
def uriUnreserved (c : Char) : Bool :=
  c.isAlpha || c.isDigit || c = '-' || c = '_' || c = '.' || c = '!' ||
  c = '~' || c = '*' || c = apos || c = '(' || c = ')'

/-- JS `encodeURIComponent`. -/
def encodeURIComponent (s : String) : String :=
  (s.toList.flatMap (fun c =>
    if uriUnreserved c then [c]
    else (utf8Bytes c).flatMap
      (fun b => ['%', hexDigit (b / 16), hexDigit (b % 16)]))).asString

/-- `replace` of each space (only the space character) by an
underscore, as in `processInline`'s slug. -/
def spacesToUnderscores (s : String) : String :=
  (s.toList.map (fun c => if c = ' ' then '_' else c)).asString

/-- `replace` of whitespace runs by single underscores (no trimming),
as in `renderInternalLink`'s href. -/
def wsRunsToUnderscores (s : String) : String :=
  (collapseWsUnderscore false s.toList).asString

/-- The hyphen-collapsing pass of `generateHeadingId`. -/
def collapseWsHyphen : Bool → List Char → List Char
  | _, [] => []
  | inRun, c :: cs =>
    if wsChar c then
      if inRun then collapseWsHyphen true cs
      else '-' :: collapseWsHyphen true cs
    else c :: collapseWsHyphen false cs

/-- `Parser.generateHeadingId`: lowercase, strip characters that are
neither word, whitespace nor hyphen, collapse whitespace runs to
hyphens. -/
def generateHeadingId (text : String) : String :=
  (collapseWsHyphen false ((lowerStr text).toList.filter
    (fun c => c.isAlpha || c.isDigit || c = '_' || wsChar c || c = '-'))).asString

/-- The digits-only fragment of `parseInt` (sufficient for the numeric
attribute strings the tokenizer emits). -/
def digitsToNat (l : List Char) : Nat :=
  l.foldl (fun acc c => acc * 10 + (c.toNat - 48)) 0

/-- `parseInt` rendered into a string (`NaN` when no leading digit). -/
def jsParseIntStr (s : String) : String :=
  let ds := s.toList.takeWhile (fun c => c.isDigit)
  if ds = [] then "NaN" else toString (digitsToNat ds)

/-- `parseInt` as a number for comparisons (`NaN` behaves like zero in
the only comparison performed, a strict greater-than). -/
def jsParseIntNat (s : String) : Nat :=
  digitsToNat (s.toList.takeWhile (fun c => c.isDigit))

/-- Lazy scan to a closing quote marker (the regexp lazy dot group, so
no newline may intervene): the shortest content followed by the marker;
`none` when no close occurs. -/
def lazyTo (marker : List Char) : List Char → Option (List Char × List Char)
  | [] => none
  | c :: cs =>
    if marker.isPrefixOf (c :: cs) then some ([], (c :: cs).drop marker.length)
    else if c = '\n' then none
    else (lazyTo marker cs).map (fun p => (c :: p.1, p.2))

/-- One global replacement pass of a quote-run formatting regexp:
marker, lazy content, marker becomes pre, content, post (fuel: each
step consumes at least one character, so length plus one suffices). -/
def replQuoteF (marker pre post : List Char) : Nat → List Char → List Char
  | 0, _ => []
  | _, [] => []
  | Nat.succ fuel, c :: cs =>
    if marker.isPrefixOf (c :: cs) then
      match lazyTo marker ((c :: cs).drop marker.length) with
      | some (content, rest) =>
        pre ++ content ++ post ++ replQuoteF marker pre post fuel rest
      | none => c :: replQuoteF marker pre post fuel cs
    else c :: replQuoteF marker pre post fuel cs

/-- A run of apostrophes. -/
def quoteRun (n : Nat) : List Char := List.replicate n apos

/-- One attempted match of the inline internal-link regexp at the head:
two opening brackets, a non-empty target without bracket or pipe, an
optional piped non-empty display without closing bracket, two closing
brackets. -/
def iLinkMatch (l : List Char) : Option (List Char × Option (List Char) × Nat) :=
  match l with
  | '[' :: '[' :: rest =>
    let target := rest.takeWhile (fun c => ¬(c = ']' ∨ c = '|'))
    if target = [] then none
    else
      let rest1 := rest.drop target.length
      if rest1.head? = some '|' then
        let disp := rest1.tail.takeWhile (fun c => ¬(c = ']'))
        if disp = [] then none
        else
          if (rest1.tail.drop disp.length).take 2 = [']', ']'] then
            some (target, some disp, 2 + target.length + 1 + disp.length + 2)
          else none
      else
        if rest1.take 2 = [']', ']'] then some (target, none, 2 + target.length + 2)
        else none
  | _ => none

/-- The inline internal-link replacement callback of `processInline`:
category targets vanish, file and image targets are left as the matched
text, the rest become wiki anchors with spaces-to-underscores slugs. -/
def iLinkRepl (target : List Char) (disp : Option (List Char)) : String :=
  let linkTarget := jsTrim target.asString
  let linkDisplay := match disp with
    | some d => jsTrim d.asString
    | none => linkTarget
  if jsStartsWith (lowerStr linkTarget) "category:" then ""
  else if jsStartsWith (lowerStr linkTarget) "file:" ∨
      jsStartsWith (lowerStr linkTarget) "image:" then
    "[[" ++ target.asString ++
      (match disp with
       | some d => "|" ++ d.asString
       | none => "") ++ "]]"
  else
    "<a href=\"/wiki/" ++ spacesToUnderscores linkTarget ++ "\">" ++ linkDisplay ++ "</a>"

/-- The global inline internal-link replacement (fuel as above). -/
def replILinkF : Nat → List Char → List Char
  | 0, _ => []
  | _, [] => []
  | Nat.succ fuel, c :: cs =>
    match iLinkMatch (c :: cs) with
    | some (t, d, n) => (iLinkRepl t d).toList ++ replILinkF fuel ((c :: cs).drop n)
    | none => c :: replILinkF fuel cs

/-- One attempted match of the inline external-link regexp at the head:
a bracket, a scheme with double slash (the regexp requires the double
slash even for mailto), a url without whitespace or bracket, an
optional whitespace-separated display, a closing bracket.  When the
display group sees the bracket immediately it backtracks one whitespace
character out of the separator run. -/
def eLinkMatch (l : List Char) : Option (List Char × Option (List Char) × Nat) :=
  match l with
  | '[' :: rest =>
    let scheme : Option (List Char) :=
      if "https://".toList.isPrefixOf rest then some "https://".toList
      else if "http://".toList.isPrefixOf rest then some "http://".toList
      else if "ftp://".toList.isPrefixOf rest then some "ftp://".toList
      else if "mailto://".toList.isPrefixOf rest then some "mailto://".toList
      else none
    match scheme with
    | none => none
    | some sch =>
      let tail := rest.drop sch.length
      let urlTail := tail.takeWhile (fun c => ¬(wsChar c ∨ c = ']'))
      if urlTail = [] then none
      else
        let url := sch ++ urlTail
        let rest1 := tail.drop urlTail.length
        match rest1.head? with
        | some c1 =>
          if c1 = ']' then some (url, none, 1 + url.length + 1)
          else if wsChar c1 then
            let run := rest1.takeWhile (fun c => wsChar c)
            let rest2 := rest1.drop run.length
            let d := rest2.takeWhile (fun c => ¬(c = ']'))
            if d ≠ [] then
              if (rest2.drop d.length).head? = some ']' then
                some (url, some d, 1 + url.length + run.length + d.length + 1)
              else none
            else
              if 2 ≤ run.length ∧ rest2.head? = some ']' then
                some (url, some [run.getLast?.getD ' '], 1 + url.length + run.length + 1)
              else none
          else none
        | none => none
  | _ => none

/-- The inline external-link replacement callback of `processInline`:
rel nofollow, class external, no noopener, no target, no escaping. -/
def eLinkRepl (url : List Char) (disp : Option (List Char)) : String :=
  let linkText := match disp with
    | some d => jsTrim d.asString
    | none => url.asString
  "<a href=\"" ++ url.asString ++ "\" rel=\"nofollow\" class=\"external\">" ++
    linkText ++ "</a>"

/-- The global inline external-link replacement (fuel as above). -/
def replELinkF : Nat → List Char → List Char
  | 0, _ => []
  | _, [] => []
  | Nat.succ fuel, c :: cs =>
    match eLinkMatch (c :: cs) with
    | some (u, d, n) => (eLinkRepl u d).toList ++ replELinkF fuel ((c :: cs).drop n)
    | none => c :: replELinkF fuel cs

/-- `Parser.processInline`: quote formatting (five-quote before
three-quote before two-quote), then inline internal links, then inline
external links. -/
def processInline (text : String) : String :=
  let t1 := replQuoteF (quoteRun 5) "<strong><em>".toList "</em></strong>".toList
    (text.toList.length + 1) text.toList
  let t2 := replQuoteF (quoteRun 3) "<strong>".toList "</strong>".toList
    (t1.length + 1) t1
  let t3 := replQuoteF (quoteRun 2) "<em>".toList "</em>".toList (t2.length + 1) t2
  let t4 := replILinkF (t3.length + 1) t3
  (replELinkF (t4.length + 1) t4).asString

/-- `Parser.renderExternalLink`. -/
def renderExternalLink (t : Token) : String :=
  let url := (mapGet t.attrs "url").getD ""
  let text := if t.text ≠ "" then t.text else url
  if url = "" then t.text
  else
    "<a href=\"" ++ escQuotes url ++
      "\" rel=\"nofollow noopener\" target=\"_blank\" class=\"external-link\">" ++
      processInline text ++ "</a>"

/-- `Parser.renderInternalLink`.  (The unused filename local of the
file branch is omitted.) -/
def renderInternalLink (opts : POptions) (t : Token) : String :=
  let target := (mapGet t.attrs "target").getD ""
  let display := match mapGet t.attrs "display" with
    | some d => if d ≠ "" then d else target
    | none => target
  if target = "" then t.text
  else if jsStartsWith (lowerStr target) "category:" then
    if opts.processCategories then "" else "[[" ++ target ++ "]]"
  else if jsStartsWith (lowerStr target) "file:" ∨
      jsStartsWith (lowerStr target) "image:" then
    "<a href=\"/wiki/" ++ encodeURIComponent (wsRunsToUnderscores target) ++
      "\" class=\"internal-link file-link\">" ++ processInline display ++ "</a>"
  else
    "<a href=\"/wiki/" ++ encodeURIComponent (wsRunsToUnderscores target) ++
      "\" class=\"internal-link\">" ++ processInline display ++ "</a>"

/-- The unknown-magic-word marker. -/
def magicMarker (name : String) : String := errSpan ("Unknown magic word: " ++ name)

/-- `Parser.expandMagicWord`: closures are invoked; plain strings are
substituted through JS truthiness, so the empty string falls through to
the error marker exactly like an absent binding. -/
def expandMagicWord (ctx : PCtx) (name : String) : String :=
  match mapGet ctx.magicWords name with
  | some (.fn f) => f ()
  | some (.str s) => if s ≠ "" then s else magicMarker name
  | none => magicMarker name

/-- String escaping of `JSON.stringify` (quotes and backslashes; the
parameter values cannot contain control characters that matter to the
cache key). -/
def jsonEscape (s : String) : String :=
  (s.toList.flatMap (fun c =>
    if c = '"' then ['\\', '"'] else if c = '\\' then ['\\', '\\'] else [c])).asString

/-- `JSON.stringify` of the insertion-ordered parameter object. -/
def serializeParams (ps : List (String × String)) : String :=
  "\x7b" ++ String.intercalate ","
    (ps.map (fun kv => "\"" ++ jsonEscape kv.1 ++ "\":\"" ++ jsonEscape kv.2 ++ "\"")) ++
    "\x7d"

/-- The parameter-object construction of `expandTemplate`: a segment
with an equals sign binds the trimmed name to the trimmed value;
otherwise the segment binds the stringified array index plus one. -/
def buildTemplateParams (params : List String) : List (String × String) :=
  params.enum.foldl (fun acc p =>
    match idxOf '=' p.2.toList with
    | some i =>
      mapSet acc (jsTrim (p.2.toList.take i).asString)
        (jsTrim (p.2.toList.drop (i + 1)).asString)
    | none => mapSet acc (toString (p.1 + 1)) (jsTrim p.2)) []

/-- The depth-exceeded marker of `expandTemplate`. -/
def depthMarker : String := errSpan "Error: Template recursion depth limit exceeded"

/-- The not-found marker of `expandTemplate`. -/
def notFoundMarker (name : String) : String :=
  errSpan ("Template not found: " ++ name)

/-- `Parser.expandTemplate`: depth guard, parameter-object
construction, per-render template cache, registry lookup and
render-function invocation (a definition without a render function
yields the empty string on this path, and the returned output is not
re-parsed).  The depth increment and the decrement in the finally
block cancel, so the returned context keeps the caller's depth. -/
def expandTemplate (opts : POptions) (reg : Registry) (ctx : PCtx) (t : Token) :
    String × PCtx :=
  if ctx.recursionDepth ≥ maxDepthOf opts then (depthMarker, ctx)
  else
    let name := t.text
    let templateParams := buildTemplateParams t.params
    let cacheKey := name ++ serializeParams templateParams
    match mapGet ctx.templateCache cacheKey with
    | some r => (r, ctx)
    | none =>
      match reg.get name with
      | none => (notFoundMarker name, ctx)
      | some tmpl =>
        let tctx : TemplateCtx := { params := templateParams, page := some ctx.page }
        let result := match tmpl.render with
          | some f => f templateParams tctx
          | none => ""
        (result, { ctx with templateCache := mapSet ctx.templateCache cacheKey result })

/-- `Parser.renderHTML`. -/
def renderHTML (t : Token) : String :=
  if mapGet t.attrs "closing" = some "true" then "</" ++ t.text ++ ">"
  else
    let attrs := mapDel t.attrs "closing"
    let attrString := String.intercalate " "
      (attrs.map (fun kv => kv.1 ++ "=\"" ++ kv.2 ++ "\""))
    "<" ++ t.text ++ (if attrString ≠ "" then " " ++ attrString else "") ++ ">"

/-- `Parser.renderListItem` (the definition split happens at the first
colon of the already-processed content). -/
def renderListItem (t : Token) : String :=
  let ty := (mapGet t.attrs "type").getD "bullet"
  let content := processInline t.text
  if ty = "bullet" then "<li>" ++ content ++ "</li>"
  else if ty = "number" then "<li>" ++ content ++ "</li>"
  else if ty = "indent" then "<dd>" ++ content ++ "</dd>"
  else if ty = "definition" then
    match idxOf ':' content.toList with
    | some i =>
      "<dt>" ++ (content.toList.take i).asString ++ "</dt><dd>" ++
        (content.toList.drop (i + 1)).asString ++ "</dd>"
    | none => "<dt>" ++ content ++ "</dt>"
  else "<li>" ++ content ++ "</li>"

/-- The paragraph-grouping inner loop of `processTokens` (the Text
case): text, newline and link tokens are grouped; a double newline
flushes the paragraph. -/
def paraGo (opts : POptions) : List Token → String → Bool → String → String × List Token
  | [], para, hc, acc =>
    (acc ++ (if hc then "<p>" ++ jsTrim para ++ "</p>" else ""), [])
  | t :: rest, para, hc, acc =>
    if t.type = .TEXT then
      let tt := jsTrim t.text
      if tt ≠ "" then paraGo opts rest (para ++ processInline tt ++ " ") true acc
      else paraGo opts rest para hc acc
    else if t.type = .NEWLINE then
      match hr : rest with
      | t2 :: rest2 =>
        if t2.type = .NEWLINE then
          if hc then paraGo opts rest2 "" false (acc ++ "<p>" ++ jsTrim para ++ "</p>")
          else paraGo opts rest2 para hc acc
        else paraGo opts rest para hc acc
      | [] => (acc ++ (if hc then "<p>" ++ jsTrim para ++ "</p>" else ""), [])
    else if t.type = .LINK then
      let piece := if mapGet t.attrs "external" = some "true"
        then renderExternalLink t else renderInternalLink opts t
      paraGo opts rest (para ++ piece) true acc
    else
      (acc ++ (if hc then "<p>" ++ jsTrim para ++ "</p>" else ""), t :: rest)
  termination_by l _ _ _ => l.length
  decreasing_by
    all_goals simp only [List.length_cons]
    all_goals try omega
    all_goals rw [hr]
    all_goals simp only [List.length_cons]
    all_goals omega

/-- The list-grouping inner loop of `processTokens`: newlines between
items are skipped; items whose type attribute equals the group's type
continue it; a nesting level above one emits a nested single-item
list. -/
def listGo (opts : POptions) (currentType : String) :
    List Token → String → String × List Token
  | [], acc => (acc, [])
  | t :: rest, acc =>
    if t.type = .NEWLINE then listGo opts currentType rest acc
    else if t.type = .LIST_ITEM ∧ mapGet t.attrs "type" = some currentType then
      if jsParseIntNat ((mapGet t.attrs "level").getD "1") > 1 then
        let nestedTag := if mapGet t.attrs "type" = some "number" then "ol" else "ul"
        listGo opts currentType rest
          (acc ++ "<li>" ++ "<" ++ nestedTag ++ ">" ++ "<li>" ++
            processInline t.text ++ "</li>" ++ "</" ++ nestedTag ++ ">" ++ "</li>")
      else listGo opts currentType rest (acc ++ renderListItem t)
    else (acc, t :: rest)

/-- The token dispatch loop of `processTokens`, on fuel (each iteration
of a tokenizer-produced stream consumes at least one token, so the
token count plus one suffices; `none` models the source loop failing to
progress).  The running index `i` and accumulated html feed the row
check of the table-row case. -/
def processGo (opts : POptions) (reg : Registry) (ev : String → Option String)
    (timeF : List String → Option String) :
    Nat → Nat → String → PCtx → List Token → Option (String × PCtx)
  | 0, _, _, _, _ => none
  | Nat.succ _, _, html, ctx, [] => some (html, ctx)
  | Nat.succ fuel, i, html, ctx, t :: rest =>
    match t.type with
    | .TEXT =>
      let pr := paraGo opts (t :: rest) "" false ""
      processGo opts reg ev timeF fuel (i + ((t :: rest).length - pr.2.length))
        (html ++ pr.1) ctx pr.2
    | .NEWLINE => processGo opts reg ev timeF fuel (i + 1) html ctx rest
    | .HEADING =>
      let levelStr := jsParseIntStr ((mapGet t.attrs "level").getD "2")
      processGo opts reg ev timeF fuel (i + 1)
        (html ++ "<h" ++ levelStr ++ " id=\"" ++ generateHeadingId t.text ++ "\">" ++
          processInline t.text ++ "</h" ++ levelStr ++ ">") ctx rest
    | .LINK =>
      let piece := if mapGet t.attrs "external" = some "true"
        then renderExternalLink t else renderInternalLink opts t
      processGo opts reg ev timeF fuel (i + 1) (html ++ piece) ctx rest
    | .TEMPLATE =>
      if ctx.expandTemplates then
        let er := expandTemplate opts reg ctx t
        processGo opts reg ev timeF fuel (i + 1) (html ++ er.1) er.2 rest
      else processGo opts reg ev timeF fuel (i + 1) (html ++ t.text) ctx rest
    | .PARSER_FUNCTION =>
      processGo opts reg ev timeF fuel (i + 1)
        (html ++ executeParserFunction ev timeF t.text t.params ctx) ctx rest
    | .MAGIC_WORD =>
      processGo opts reg ev timeF fuel (i + 1)
        (html ++ expandMagicWord ctx t.text) ctx rest
    | .HTML =>
      let piece := if opts.allowHTML then renderHTML t else escapeHTML t.text
      processGo opts reg ev timeF fuel (i + 1) (html ++ piece) ctx rest
    | .TABLE =>
      let piece := if mapGet t.attrs "state" = some "start"
        then "<table class=\"wikitable\">" else "</tr></table>"
      processGo opts reg ev timeF fuel (i + 1) (html ++ piece) ctx rest
    | .TABLE_ROW =>
      let piece := (if 0 < i ∧ substrB "<table" html then "</tr>" else "") ++ "<tr>"
      processGo opts reg ev timeF fuel (i + 1) (html ++ piece) ctx rest
    | .TABLE_CELL =>
      let tag := if mapGet t.attrs "header" = some "true" then "th" else "td"
      processGo opts reg ev timeF fuel (i + 1)
        (html ++ "<" ++ tag ++ ">" ++ processInline t.text ++ "</" ++ tag ++ ">") ctx rest
    | .LIST_ITEM =>
      let currentType := (mapGet t.attrs "type").getD "bullet"
      let listTag := if currentType = "number" then "ol" else "ul"
      let lr := listGo opts currentType (t :: rest) ""
      processGo opts reg ev timeF fuel (i + ((t :: rest).length - lr.2.length))
        (html ++ "<" ++ listTag ++ ">" ++ lr.1 ++ "</" ++ listTag ++ ">") ctx lr.2

/-- `Parser.processTokens`. -/
def processTokens (opts : POptions) (reg : Registry) (ev : String → Option String)
    (timeF : List String → Option String) (ctx : PCtx) (tokens : List Token) :
    Option (String × PCtx) :=
  processGo opts reg ev timeF (tokens.length + 1) 0 "" ctx tokens

/-- C2 counterexample: a template whose render output transcludes
itself expands exactly one level — the rendered output is inserted
verbatim and never re-parsed — so rendering the page terminates with
the raw self-call in the HTML and without the depth-exceeded marker the
claim requires. -/
theorem self_transclusion_no_depth_marker :
    tokenizeFuel 20 (initTok "\x7b\x7bSelf|x\x7d\x7d") =
      some [⟨.TEMPLATE, "Self", 0, 10, [], ["x"]⟩] ∧
    (processTokens {} (({} : Registry).register
        ⟨"Self", none, some (fun _ _ => "\x7b\x7bSelf|x\x7d\x7d")⟩)
        (fun _ => none) (fun _ => none) {}
        [⟨.TEMPLATE, "Self", 0, 10, [], ["x"]⟩]).map Prod.fst =
      some "\x7b\x7bSelf|x\x7d\x7d" ∧
    substrB depthMarker "\x7b\x7bSelf|x\x7d\x7d" = false := by
  refine ⟨by decide, rfl, by decide⟩

/-- C2 amended: rendering a self-transcluding template terminates, but
not through the depth guard: template output is never re-parsed, so
expansion is single-level; the depth-exceeded marker is emitted exactly
when a template token is expanded with the recursion depth already at
or beyond the limit (the default limit being 40), and expansion leaves
the caller's depth unchanged (the increment and the finally-decrement
cancel). -/
theorem template_depth_guard_and_no_reparse :
    ∀ (opts : POptions) (reg : Registry) (ctx : PCtx) (t : Token),
      maxDepthOf {} = 40 ∧
      (ctx.recursionDepth ≥ maxDepthOf opts →
        expandTemplate opts reg ctx t = (depthMarker, ctx)) ∧
      (expandTemplate opts reg ctx t).2.recursionDepth = ctx.recursionDepth := by
  intro opts reg ctx t
  refine ⟨rfl, ?_, ?_⟩
  · intro h
    simp [expandTemplate, h]
  · unfold expandTemplate
    split
    · rfl
    · dsimp only
      split
      · rfl
      · split
        · rfl
        · rfl

/-- Witness for the C2 depth guard at a concrete context already at the
default limit. -/
theorem template_depth_guard_witness :
    expandTemplate {} {} { recursionDepth := 40 } ⟨.TEMPLATE, "T", 0, 0, [], []⟩ =
      (depthMarker, { recursionDepth := 40 }) :=
  (template_depth_guard_and_no_reparse {} {} { recursionDepth := 40 }
    ⟨.TEMPLATE, "T", 0, 0, [], []⟩).2.1 (by decide)

/-- C7 counterexample: an external link inside a heading text run is
rendered by `processInline` and the emitted HTML carries only rel
nofollow — no noopener, no target blank — contradicting the claim that
every emitted external anchor carries them. -/
theorem inline_external_link_lacks_noopener :
    (processTokens {} {} (fun _ => none) (fun _ => none) {}
        ((tokenizeFuel 99 (initTok "== [http://e.com x] ==")).getD [])).map Prod.fst =
      some ("<h2 id=\"httpecom-x\"><a href=\"http://e.com\" rel=\"nofollow\" class=\"external\">x</a></h2>") ∧
    substrB "noopener"
      "<h2 id=\"httpecom-x\"><a href=\"http://e.com\" rel=\"nofollow\" class=\"external\">x</a></h2>" = false ∧
    substrB "target=\"_blank\""
      "<h2 id=\"httpecom-x\"><a href=\"http://e.com\" rel=\"nofollow\" class=\"external\">x</a></h2>" = false := by
  refine ⟨rfl, by decide, by decide⟩

/-- C7 amended: a standalone external Link token is rendered with rel
nofollow noopener, target blank and a quote-escaped href; an external
link inside a text run is rendered by `processInline` with only rel
nofollow and class external — no noopener, no target, no escaping. -/
theorem external_link_render_attributes :
    ∀ (t : Token) (url : String),
      mapGet t.attrs "url" = some url → url ≠ "" →
      renderExternalLink t =
        "<a href=\"" ++ escQuotes url ++
          "\" rel=\"nofollow noopener\" target=\"_blank\" class=\"external-link\">" ++
          processInline (if t.text ≠ "" then t.text else url) ++ "</a>" ∧
      processInline "[http://e.com x]" =
        "<a href=\"http://e.com\" rel=\"nofollow\" class=\"external\">x</a>" := by
  intro t url h1 h2
  refine ⟨?_, rfl⟩
  simp [renderExternalLink, h1, h2]

/-- Witness for C7 at a concrete standalone external link token. -/
theorem external_link_render_attributes_witness :
    renderExternalLink ⟨.LINK, "Example", 0, 29,
        [("url", "https://example.com"), ("external", "true")], []⟩ =
      "<a href=\"" ++ escQuotes "https://example.com" ++
        "\" rel=\"nofollow noopener\" target=\"_blank\" class=\"external-link\">" ++
        processInline (if ("Example" : String) ≠ "" then "Example"
          else "https://example.com") ++ "</a>" :=
  (external_link_render_attributes
    ⟨.LINK, "Example", 0, 29, [("url", "https://example.com"), ("external", "true")], []⟩
    "https://example.com" rfl (by decide)).1

/-- C9 counterexample: the magic word X is bound in the context to the
plain empty string — it is not absent — yet evaluation produces the
unknown-word marker instead of substituting the empty string, because
substitution goes through JS truthiness. -/
theorem magic_word_empty_binding_counterexample :
    mapGet [("X", MagicVal.str "")] "X" = some (MagicVal.str "") ∧
    expandMagicWord { magicWords := [("X", MagicVal.str "")] } "X" =
      errSpan "Unknown magic word: X" :=
  ⟨rfl, rfl⟩

/-- C9 amended: a bound closure substitutes its result; a bound
non-empty plain string substitutes itself; the inline error marker
naming the word is produced when the word is absent or when it is bound
to the empty plain string (JS truthiness folds the empty binding into
the absent case). -/
theorem expandMagicWord_semantics :
    ∀ (ctx : PCtx) (name : String) (f : Unit → String) (s : String),
      (mapGet ctx.magicWords name = some (MagicVal.fn f) →
        expandMagicWord ctx name = f ()) ∧
      (mapGet ctx.magicWords name = some (MagicVal.str s) → s ≠ "" →
        expandMagicWord ctx name = s) ∧
      (mapGet ctx.magicWords name = some (MagicVal.str "") →
        expandMagicWord ctx name = errSpan ("Unknown magic word: " ++ name)) ∧
      (mapGet ctx.magicWords name = none →
        expandMagicWord ctx name = errSpan ("Unknown magic word: " ++ name)) := by
  intro ctx name f s
  refine ⟨?_, ?_, ?_, ?_⟩
  · intro h; simp [expandMagicWord, h]
  · intro h hs; simp [expandMagicWord, h, hs]
  · intro h; simp [expandMagicWord, h, magicMarker]
  · intro h; simp [expandMagicWord, h, magicMarker]

/-- Witness for C9 at a concrete context: a closure binding, a
non-empty plain binding, and an absent word. -/
theorem expandMagicWord_semantics_witness :
    expandMagicWord { magicWords := [("A", MagicVal.fn (fun _ => "t")),
        ("B", MagicVal.str "v")] } "A" = "t" ∧
    expandMagicWord { magicWords := [("A", MagicVal.fn (fun _ => "t")),
        ("B", MagicVal.str "v")] } "B" = "v" ∧
    expandMagicWord { magicWords := [("A", MagicVal.fn (fun _ => "t")),
        ("B", MagicVal.str "v")] } "C" =
      errSpan ("Unknown magic word: " ++ "C") :=
  ⟨(expandMagicWord_semantics _ "A" (fun _ => "t") "v").1 rfl,
   (expandMagicWord_semantics { magicWords := [("A", MagicVal.fn (fun _ => "t")),
      ("B", MagicVal.str "v")] } "B" (fun _ => "t") "v").2.1 rfl (by decide),
   (expandMagicWord_semantics { magicWords := [("A", MagicVal.fn (fun _ => "t")),
      ("B", MagicVal.str "v")] } "C" (fun _ => "t") "v").2.2.2 rfl⟩

/-- C10: with template expansion disabled, a Template token contributes
exactly its bare name to the output — the braces and every parameter
are dropped — and the result does not depend on the registry (no
registry lookup is performed). -/
theorem preview_template_token_bare_name :
    ∀ (opts : POptions) (reg : Registry) (ev : String → Option String)
      (timeF : List String → Option String) (ctx : PCtx)
      (name : String) (ps : List String) (attrs : List (String × String)) (a b : Nat),
      ctx.expandTemplates = false →
      processTokens opts reg ev timeF ctx [⟨.TEMPLATE, name, a, b, attrs, ps⟩] =
        some (name, ctx) := by
  intro opts reg ev timeF ctx name ps attrs a b h
  simp [processTokens, processGo, h]

/-- Witness for C10 at a concrete preview context and template token
with parameters. -/
theorem preview_template_token_bare_name_witness :
    processTokens {} {} (fun _ => none) (fun _ => none)
        { expandTemplates := false } [⟨.TEMPLATE, "Foo", 0, 13, [], ["a=b", "c"]⟩] =
      some ("Foo", { expandTemplates := false }) :=
  preview_template_token_bare_name {} {} (fun _ => none) (fun _ => none)
    { expandTemplates := false } "Foo" ["a=b", "c"] [] 0 13 rfl

/-! ## Render cache (lib/parser/cache.ts) and Parser.parse -/

end Wiki
